import Mathlib

/-!
Verification of the easyffmpeg ingestion-and-dispatch pipeline.

The definitions below are a shallow embedding of `index.js` (the current
entry point of the repository).  Each definition carries a comment naming
the source function and lines it embeds.  A second, legacy entry point
(`src/unnamed/part_000`) implements an older variant of the same pipeline;
where its behaviour differs this is noted next to the relevant theorem.
-/

/- ### String helpers

JavaScript string primitives used by the source, modelled over `List Char`
so that every definition evaluates by kernel reduction. -/

/-- JS `String.prototype.toLowerCase` (ASCII case folding, which is all the
source ever feeds it: file extensions and codec names). -/
def lowerStr (s : String) : String := String.mk (s.toList.map Char.toLower)

/-- JS `String.prototype.includes`: `sub` occurs as a contiguous substring. -/
def strIncludes (s sub : String) : Bool :=
  s.toList.tails.any (fun t => sub.toList.isPrefixOf t)

/-- Split a character list on `/` separators (used to embed Node's
`path.extname`, which looks only at the last path segment). -/
def splitSlash : List Char → List (List Char)
  | [] => [[]]
  | c :: rest =>
    let r := splitSlash rest
    if c = '/' then [] :: r
    else
      match r with
      | [] => [[c]]
      | h :: t => (c :: h) :: t

/-- Node `path.extname`: the substring of the basename from its last `.`;
empty when the basename has no dot or only a leading dot. -/
def extname (p : String) : String :=
  let base := (splitSlash p.toList).getLastD []
  match base.reverse.findIdx? (fun c => c == '.') with
  | none => ""
  | some k =>
    let i := base.length - 1 - k
    if i = 0 then "" else String.mk (base.drop i)

/- ### Directory reconciler (`removeEmptyDirectories`, index.js lines 66-95)

The filesystem subtree rooted at one directory is a finite tree whose
directory nodes carry a list of named entries. -/

/-- A filesystem node: a plain file, or a directory with named entries. -/
inductive FsT where
  | file : FsT
  | dir (entries : List (String × FsT)) : FsT

/-- Result of the `for (const entry of entries)` loop of
`removeEmptyDirectories`: the entries that survive, the final value of the
`isEmpty` flag, how many directories were removed, and whether an exception
escaped the loop (to be caught by the enclosing `try`). -/
structure LoopRes where
  surv : List (String × FsT)
  isEmp : Bool
  removed : Nat
  aborted : Bool

/-- Result of one call to `removeEmptyDirectories` on a directory:
`none` when the directory removed itself (`fs.rmdir(dirPath)`), otherwise
the surviving entries; plus the total number of directories removed. -/
structure DirRes where
  result : Option (List (String × FsT))
  removed : Nat

/-- The tail of `removeEmptyDirectories` (lines 88-94): after the loop,
remove `dirPath` itself when `isEmpty` held and `depth` is at or beyond
`config.folderCleanDepth`; a loop aborted by an exception skips this check
(the exception lands in the `catch` of the same call). -/
def dirResult (cleanDepth : Int) (depth : Nat) (r : LoopRes) : DirRes :=
  if r.aborted then ⟨some r.surv, r.removed⟩
  else if r.isEmp && decide ((depth : Int) ≥ cleanDepth) then ⟨none, r.removed + 1⟩
  else ⟨some r.surv, r.removed⟩

/-- The entry loop of `removeEmptyDirectories` (lines 71-86).  For a
directory entry the code first recurses (`removeEmptyDirectories(entryPath,
depth + 1)`), then re-reads the entry with `fs.readdir(entryPath)`.  When
the recursive call removed `entryPath`, that `readdir` throws; the throw
escapes the loop (remaining siblings untouched) and is caught by this
call's `catch`.  Otherwise, if the entry is now empty and the *current*
`depth` is at or beyond the clean depth, it is removed; otherwise it
survives and `isEmpty` becomes false. -/
def rmLoop (cleanDepth : Int) (depth : Nat) : List (String × FsT) → LoopRes
  | [] => ⟨[], true, 0, false⟩
  | (n, .file) :: rest =>
    let r := rmLoop cleanDepth depth rest
    ⟨(n, .file) :: r.surv, false, r.removed, r.aborted⟩
  | (n, .dir sub) :: rest =>
    match dirResult cleanDepth (depth + 1) (rmLoop cleanDepth (depth + 1) sub) with
    | ⟨none, rem⟩ => ⟨rest, false, rem, true⟩
    | ⟨some sub', rem⟩ =>
      if sub'.isEmpty && decide ((depth : Int) ≥ cleanDepth) then
        let r := rmLoop cleanDepth depth rest
        ⟨r.surv, r.isEmp, rem + 1 + r.removed, r.aborted⟩
      else
        let r := rmLoop cleanDepth depth rest
        ⟨(n, .dir sub') :: r.surv, false, rem + r.removed, r.aborted⟩

/-- `removeEmptyDirectories(dirPath, depth)` on a directory whose entry
list is `es`: run the loop, then the self-removal check. -/
def removeEmptyDirectories (cleanDepth : Int) (depth : Nat)
    (es : List (String × FsT)) : DirRes :=
  dirResult cleanDepth depth (rmLoop cleanDepth depth es)

/- ### Transcode queue and single-flight scheduler
(index.js lines 44-46, 152-173, 260-300) -/

/-- The mutable process state of index.js: `const queue = []` and
`let processing = false`, plus the set of encode jobs currently running
(a list, so that "at most one running" is a provable property rather than
a typing artifact). -/
structure QState where
  queue : List String
  processing : Bool
  running : List String
deriving DecidableEq

/-- The three events that touch the queue state: `addToQueue(filepath)`,
and the terminal `end` / `error` callbacks of the running job. -/
inductive QEvent where
  | add (p : String)
  | endOk
  | endErr
deriving DecidableEq

/-- The `error` handler of `processFile` (index.js line 290):
`queue.push(filepath)` re-appends the failed path at the tail. -/
def requeueOnError (q : List String) (p : String) : List String := q ++ [p]

/-- One transition of the queue/scheduler state machine.

`add p` is `addToQueue`: push, then `processQueue()` — which returns at
once when `processing` is set, and otherwise sets the gate and shifts the
head into execution (lines 152-158).

`endOk`/`endErr` are the terminal callbacks of the running job reaching
the `await processFile` in the drain loop (lines 157-166): on error the
path was already pushed back by the `error` handler; either way the loop
shifts the next entry if one exists, else clears `processing`. -/
def qstep (s : QState) : QEvent → QState
  | .add p =>
    let q := s.queue ++ [p]
    if s.processing then ⟨q, s.processing, s.running⟩
    else
      match q with
      | [] => ⟨q, s.processing, s.running⟩
      | h :: t => ⟨t, true, [h]⟩
  | .endOk =>
    match s.running with
    | [] => s
    | _ :: _ =>
      match s.queue with
      | [] => ⟨[], false, []⟩
      | h :: t => ⟨t, true, [h]⟩
  | .endErr =>
    match s.running with
    | [] => s
    | p :: _ =>
      match requeueOnError s.queue p with
      | [] => ⟨[], false, []⟩
      | h :: t => ⟨t, true, [h]⟩

/-- States reachable from the initial state (empty queue, gate clear,
nothing running) under any interleaving of events. -/
inductive Reachable : QState → Prop where
  | init : Reachable ⟨[], false, []⟩
  | step (s : QState) (e : QEvent) : Reachable s → Reachable (qstep s e)

/- ### Relocation sequence of the `end` handler
(`processFile`, index.js lines 272-287) -/

/-- A flat model of the filesystem as the list of existing paths. -/
def fsAdd (fs : List String) (p : String) : List String :=
  if p ∈ fs then fs else p :: fs

/-- Removal of a path from the flat filesystem model (`fs.unlink`). -/
def fsRemove (fs : List String) (p : String) : List String :=
  fs.filter (fun q => decide (q ≠ p))

/-- The `end` handler of `processFile` (index.js lines 272-287): inside one
`try`, copy the temp output to the final path, delete the temp output, and
— only if `config.deleteSourceFile` — delete the source; any failure jumps
to the `catch`, which logs and does nothing else.  Each fallible step takes
an injected failure flag (covering exogenous errors such as permissions).
Returns the filesystem, the queue (which the handler never touches), and
whether an error was logged. -/
def onEndRelocate (deleteSourceFile : Bool) (temppath newpath filepath : String)
    (fs queue : List String) (copyFails unlinkTempFails unlinkSrcFails : Bool) :
    List String × List String × Bool :=
  if copyFails then (fs, queue, true)
  else
    let fs1 := fsAdd fs newpath
    if unlinkTempFails then (fs1, queue, true)
    else
      let fs2 := fsRemove fs1 temppath
      if deleteSourceFile then
        if unlinkSrcFails then (fs2, queue, true)
        else (fsRemove fs2 filepath, queue, false)
      else (fs2, queue, false)

/- ### Metadata probe and file-add routing
(index.js lines 98-141, 302-370) -/

/-- One stream as reported by ffprobe: its `codec_type` and `codec_name`. -/
structure MStream where
  codec_type : String
  codec_name : String
deriving DecidableEq

/-- The probe result used by the source: the stream list and the container
`format.duration`. -/
structure Metadata where
  streams : List MStream
  duration : Int
deriving DecidableEq

/-- `detectSample` (index.js lines 127-141): a probe error is caught,
logged, and yields `false`; otherwise the file is a sample exactly when
`config.videoSampleSeconds > format.duration`. -/
def detectSample (videoSampleSeconds : Int) (probe : Except Unit Metadata) : Bool :=
  match probe with
  | .error _ => false
  | .ok m => decide (videoSampleSeconds > m.duration)

/-- `isTargetCodec` (index.js lines 108-124): a probe error is caught,
logged, and yields `false`; otherwise find the first stream with
`codec_type === 'video'` and test whether `config.videoCodec` contains its
lower-cased `codec_name` as a substring (`String.prototype.includes`). -/
def isTargetCodec (videoCodec : String) (probe : Except Unit Metadata) : Bool :=
  match probe with
  | .error _ => false
  | .ok m =>
    match m.streams.find? (fun s => s.codec_type == "video") with
    | some videoStream => strIncludes videoCodec (lowerStr videoStream.codec_name)
    | none => false

/-- `videoExtensions` (index.js line 8). -/
def videoExtensions : List String := [".mp4", ".mkv", ".m4v"]

/-- `subtitleExtensions` (index.js line 9). -/
def subtitleExtensions : List String := [".srt", ".ass", ".sub", ".ssa", ".smi", ".vtt"]

/-- `isWorkFile` (index.js lines 303-305). -/
def isWorkFile (filepath : String) : Bool :=
  strIncludes filepath "/." || strIncludes filepath ".queued" || strIncludes filepath "_UNPACK_"

/-- `isVideoFile` (index.js lines 308-310). -/
def isVideoFile (extension : String) : Bool := videoExtensions.contains extension

/-- `isSubtitleFile` (index.js lines 313-315). -/
def isSubtitleFile (extension : String) : Bool := subtitleExtensions.contains extension

/-- The configuration fields of index.js (lines 23-42) that `handleFileAdd`
consults. -/
structure Config where
  videoCodec : String
  videoSkipReencode : Bool
  deleteMiscFiles : Bool
  videoSampleSeconds : Int
deriving DecidableEq

/-- The observable actions of `handleFileAdd`, in program order. -/
inductive RouterAction where
  | logIgnoreWork
  | chmodTree
  | mkdirFinalDir
  | probeCall
  | logSkipSample
  | copyToFinal
  | unlinkSource
  | logFsError
  | enqueue
deriving DecidableEq

/-- A `try { copyFile; unlink } catch { log }` block (index.js lines
340-348 and 352-358): on a copy failure the unlink is skipped; on an
unlink failure the copy stands; either failure only logs. -/
def moveFileTrace (copyOk unlinkOk : Bool) : List RouterAction :=
  if copyOk = false then [.logFsError]
  else if unlinkOk = false then [.copyToFinal, .logFsError]
  else [.copyToFinal, .unlinkSource]

/-- `handleFileAdd` (index.js lines 318-370) as the ordered trace of its
actions.  `probe` is the (deterministic) ffprobe result for this path; each
`probeCall` in the trace marks one `ffprobeAsync` invocation site reached
(line 334 inside `detectSample`, line 339 inside `isTargetCodec`, the
latter only evaluated when `config.videoSkipReencode` holds, by `&&`
short-circuit).  `copyOk`/`unlinkOk` inject filesystem failures into the
fallible copy/delete steps. -/
def handleFileAdd (cfg : Config) (filepath : String) (probe : Except Unit Metadata)
    (copyOk unlinkOk : Bool) : List RouterAction :=
  if isWorkFile filepath then [.logIgnoreWork]
  else
    let extension := lowerStr (extname filepath)
    .chmodTree :: .mkdirFinalDir ::
      (if isVideoFile extension then
        .probeCall ::
          (if detectSample cfg.videoSampleSeconds probe then [.logSkipSample]
           else if cfg.videoSkipReencode then
             .probeCall ::
               (if isTargetCodec cfg.videoCodec probe then moveFileTrace copyOk unlinkOk
                else [.enqueue])
           else [.enqueue])
       else if isSubtitleFile extension then moveFileTrace copyOk unlinkOk
       else if cfg.deleteMiscFiles then
         (if unlinkOk then [.unlinkSource] else [.logFsError])
       else [])

/- ### Recursive permission change (`chmodRecursive`, index.js lines 49-63) -/

/-- A filesystem node carrying its permission mode: a plain file or a
directory with named children. -/
inductive PTree where
  | pfile (mode : Nat) : PTree
  | pdir (mode : Nat) (entries : List (String × PTree)) : PTree

mutual

/-- `chmodRecursive(dirPath, mode)` (index.js lines 49-63): set the mode of
the node, and recurse into every entry of a directory.  The source default
mode is `0o777` = 511. -/
def chmodRecursive (mode : Nat) : PTree → PTree
  | .pfile _ => .pfile mode
  | .pdir _ entries => .pdir mode (chmodEntries mode entries)

/-- The `for (const entry of entries)` recursion of `chmodRecursive`. -/
def chmodEntries (mode : Nat) : List (String × PTree) → List (String × PTree)
  | [] => []
  | (n, t) :: rest => (n, chmodRecursive mode t) :: chmodEntries mode rest

end

mutual

/-- Every node of the tree has permission mode `mode`. -/
def allModes (mode : Nat) : PTree → Bool
  | .pfile m => m == mode
  | .pdir m entries => m == mode && allModesEntries mode entries

/-- Every node of every tree in the entry list has mode `mode`. -/
def allModesEntries (mode : Nat) : List (String × PTree) → Bool
  | [] => true
  | (_, t) :: rest => allModes mode t && allModesEntries mode rest

end

/- ### Helper lemmas -/

/-- Every character list is a Boolean prefix of itself. -/
theorem isPrefixOf_self (l : List Char) : l.isPrefixOf l = true := by
  induction l with
  | nil => rfl
  | cons a as ih => simp [List.isPrefixOf, ih]

/-- JS `includes` finds a string inside itself. -/
theorem strIncludes_self (s : String) : strIncludes s s = true := by
  unfold strIncludes
  cases h : s.toList with
  | nil => simp
  | cons a as => simp [List.tails, isPrefixOf_self]

/-- Inversion for `dirResult` returning `none`: the loop ran to completion
with `isEmpty` set, the depth condition held, and one extra removal (the
directory itself) was counted. -/
theorem dirResult_none (cd : Int) (d : Nat) (r : LoopRes) (rem : Nat)
    (h : dirResult cd d r = ⟨none, rem⟩) :
    r.aborted = false ∧ r.isEmp = true ∧ ((d : Int) ≥ cd) ∧ rem = r.removed + 1 := by
  unfold dirResult at h
  by_cases ha : r.aborted = true
  · simp [ha] at h
  · simp only [Bool.not_eq_true] at ha
    by_cases hb : (r.isEmp && decide ((d : Int) ≥ cd)) = true
    · simp [ha, hb] at h ⊢
      simp at hb
      exact ⟨hb.1, hb.2, h.symm⟩
    · simp [ha, hb] at h

/-- Inversion for `dirResult` returning `some`: the surviving entries and
removal count are those of the loop. -/
theorem dirResult_some (cd : Int) (d : Nat) (r : LoopRes) (l : List (String × FsT))
    (rem : Nat) (h : dirResult cd d r = ⟨some l, rem⟩) :
    l = r.surv ∧ rem = r.removed := by
  unfold dirResult at h
  by_cases ha : r.aborted = true
  · simp [ha] at h
    exact ⟨h.1.symm, h.2.symm⟩
  · simp only [Bool.not_eq_true] at ha
    by_cases hb : (r.isEmp && decide ((d : Int) ≥ cd)) = true
    · simp [ha, hb] at h
    · simp [ha, hb] at h
      exact ⟨h.1.symm, h.2.symm⟩

/-- A loop pass that removed nothing left the entry list exactly as it was
and raised no exception. -/
theorem rmLoop_removed_zero (cd : Int) (d : Nat) (es : List (String × FsT))
    (h : (rmLoop cd d es).removed = 0) :
    (rmLoop cd d es).surv = es ∧ (rmLoop cd d es).aborted = false := by
  match es with
  | [] => simp [rmLoop]
  | (n, .file) :: rest =>
    have ih := rmLoop_removed_zero cd d rest
    simp only [rmLoop] at h ⊢
    exact ⟨by simp [(ih h).1], (ih h).2⟩
  | (n, .dir sub) :: rest =>
    rcases hc : dirResult cd (d + 1) (rmLoop cd (d + 1) sub) with ⟨res, rem⟩
    cases res with
    | none =>
      exfalso
      simp only [rmLoop, hc] at h
      have := (dirResult_none cd (d + 1) _ rem hc).2.2.2
      omega
    | some sub' =>
      obtain ⟨hs, hr⟩ := dirResult_some cd (d + 1) _ sub' rem hc
      by_cases hcond : (sub'.isEmpty && decide ((d : Int) ≥ cd)) = true
      · exfalso
        simp only [rmLoop, hc, hcond, if_true] at h
        omega
      · simp only [rmLoop, hc] at h ⊢
        rw [if_neg hcond] at h ⊢
        simp only at h ⊢
        have hrem : rem = 0 ∧ (rmLoop cd d rest).removed = 0 := by omega
        have ihsub := rmLoop_removed_zero cd (d + 1) sub (by omega)
        have ihrest := rmLoop_removed_zero cd d rest hrem.2
        refine ⟨?_, ihrest.2⟩
        have : sub' = sub := by rw [hs, ihsub.1]
        simp [this, ihrest.1]

/-- Invariant of the queue/scheduler state machine: never more than one
job in flight, and a clear gate means nothing is running. -/
theorem reachable_invariant (s : QState) (h : Reachable s) :
    s.running.length ≤ 1 ∧ (s.processing = false → s.running = []) := by
  induction h with
  | init => simp
  | step s e hs ih =>
    obtain ⟨ih1, ih2⟩ := ih
    cases e with
    | add p =>
      simp only [qstep]
      split
      · exact ⟨ih1, ih2⟩
      · split
        · exact ⟨ih1, ih2⟩
        · simp
    | endOk =>
      simp only [qstep]
      split
      · exact ⟨ih1, ih2⟩
      · split
        · simp
        · simp
    | endErr =>
      simp only [qstep]
      split
      · exact ⟨ih1, ih2⟩
      · split
        · simp
        · simp

/-- An `add` event never clears the single-flight gate: only a terminal
callback of the running job does. -/
theorem gateReleaseTerminal (s : QState) (e : QEvent) (hp : s.processing = true)
    (hr : (qstep s e).processing = false) : e = QEvent.endOk ∨ e = QEvent.endErr := by
  cases e with
  | add p => exfalso; simp [qstep, hp] at hr
  | endOk => exact Or.inl rfl
  | endErr => exact Or.inr rfl

/-- `fsAdd` makes the added path present. -/
theorem mem_fsAdd_self (fs : List String) (p : String) : p ∈ fsAdd fs p := by
  unfold fsAdd
  split
  · assumption
  · exact List.mem_cons_self p fs

/-- `fsAdd` leaves the presence of other paths unchanged. -/
theorem mem_fsAdd_iff (fs : List String) (p q : String) (h : q ≠ p) :
    q ∈ fsAdd fs p ↔ q ∈ fs := by
  unfold fsAdd
  split
  · exact Iff.rfl
  · simp [h]

/-- `fsRemove` makes the removed path absent. -/
theorem not_mem_fsRemove_self (fs : List String) (p : String) : p ∉ fsRemove fs p := by
  simp [fsRemove, List.mem_filter]

/-- `fsRemove` leaves the presence of other paths unchanged. -/
theorem mem_fsRemove_iff (fs : List String) (p q : String) (h : q ≠ p) :
    q ∈ fsRemove fs p ↔ q ∈ fs := by
  simp [fsRemove, List.mem_filter, h]

mutual

/-- After `chmodRecursive`, every node of the tree carries the new mode. -/
theorem allModes_chmodRecursive (mode : Nat) :
    (t : PTree) → allModes mode (chmodRecursive mode t) = true
  | .pfile m => by simp [chmodRecursive, allModes]
  | .pdir m entries => by
    simp only [chmodRecursive, allModes, Bool.and_eq_true, beq_self_eq_true, true_and]
    exact allModesEntries_chmodEntries mode entries

/-- After `chmodEntries`, every node of every entry carries the new mode. -/
theorem allModesEntries_chmodEntries (mode : Nat) :
    (es : List (String × PTree)) → allModesEntries mode (chmodEntries mode es) = true
  | [] => by simp [chmodEntries, allModesEntries]
  | (n, t) :: rest => by
    simp only [chmodEntries, allModesEntries, Bool.and_eq_true]
    exact ⟨allModes_chmodRecursive mode t, allModesEntries_chmodEntries mode rest⟩

end

/- ### Claims about the queue and the encode-job runner -/

/-- Claim C3: in every reachable state of the queue/scheduler machine at
most one encode job is running; when the boolean gate (`processing`) is
clear nothing is running; and any step that clears the gate is a terminal
success or error callback of the running job.  (The legacy entry point
`src/unnamed/part_000` enforces the same discipline with its `working`
flag inside a `setInterval` tick.) -/
theorem c3_single_flight (s : QState) (h : Reachable s) :
    s.running.length ≤ 1 ∧ (s.processing = false → s.running = []) ∧
    (∀ e : QEvent, s.processing = true → (qstep s e).processing = false →
      e = QEvent.endOk ∨ e = QEvent.endErr) :=
  ⟨(reachable_invariant s h).1, (reachable_invariant s h).2,
    fun e hp hr => gateReleaseTerminal s e hp hr⟩

/-- Witness for C3 at the concrete reachable state reached by adding one
path to the initial state. -/
theorem c3_single_flight_witness :
    (qstep ⟨[], false, []⟩ (QEvent.add "/watch/a.mkv")).running.length ≤ 1 ∧
    ((qstep ⟨[], false, []⟩ (QEvent.add "/watch/a.mkv")).processing = false →
      (qstep ⟨[], false, []⟩ (QEvent.add "/watch/a.mkv")).running = []) :=
  ⟨(c3_single_flight (qstep ⟨[], false, []⟩ (QEvent.add "/watch/a.mkv"))
      (Reachable.step _ _ Reachable.init)).1,
   (c3_single_flight (qstep ⟨[], false, []⟩ (QEvent.add "/watch/a.mkv"))
      (Reachable.step _ _ Reachable.init)).2.1⟩

/-- Claim C4: the `error` handler of `processFile` appends the failed path
at the tail of the queue exactly once — the queue grows by one entry, its
original entries form an unchanged prefix, the appended tail entry is the
failed path, and the multiplicity of the failed path rises by exactly
one. -/
theorem c4_requeue_tail (q : List String) (p : String) :
    (requeueOnError q p).length = q.length + 1 ∧
    (requeueOnError q p).take q.length = q ∧
    (requeueOnError q p).getLast? = some p ∧
    (requeueOnError q p).count p = q.count p + 1 := by
  refine ⟨by simp [requeueOnError], ?_, ?_, ?_⟩
  · unfold requeueOnError
    exact List.take_left q [p]
  · exact List.getLast?_concat q
  · simp [requeueOnError, List.count_append]

/-- Claim C5: on encode success, the `end` handler copies the temp output
to the final path and deletes the temp output for *both* values of the
delete-source flag, deletes the original source iff delete-source is
enabled, never touches the queue, and on an injected failure at any step
of the relocation sequence it stops with the completed steps left in place
(no rollback) and an error logged. -/
theorem c5_relocation (del : Bool) (temppath newpath filepath : String)
    (fs queue : List String)
    (h1 : temppath ≠ newpath) (h2 : filepath ≠ newpath) (h3 : filepath ≠ temppath)
    (h4 : filepath ∈ fs) :
    (newpath ∈ (onEndRelocate del temppath newpath filepath fs queue false false false).1 ∧
     temppath ∉ (onEndRelocate del temppath newpath filepath fs queue false false false).1 ∧
     (filepath ∈ (onEndRelocate del temppath newpath filepath fs queue false false false).1
        ↔ del = false) ∧
     (onEndRelocate del temppath newpath filepath fs queue false false false).2.1 = queue ∧
     (onEndRelocate del temppath newpath filepath fs queue false false false).2.2 = false) ∧
    (∀ uT uS : Bool,
      onEndRelocate del temppath newpath filepath fs queue true uT uS = (fs, queue, true)) ∧
    (∀ uS : Bool,
      onEndRelocate del temppath newpath filepath fs queue false true uS
        = (fsAdd fs newpath, queue, true)) ∧
    onEndRelocate true temppath newpath filepath fs queue false false true
      = (fsRemove (fsAdd fs newpath) temppath, queue, true) := by
  refine ⟨?_, fun uT uS => rfl, fun uS => rfl, rfl⟩
  cases del with
  | false =>
    refine ⟨?_, ?_, ?_, rfl, rfl⟩
    · show newpath ∈ fsRemove (fsAdd fs newpath) temppath
      exact (mem_fsRemove_iff _ _ _ (Ne.symm h1)).mpr (mem_fsAdd_self fs newpath)
    · show temppath ∉ fsRemove (fsAdd fs newpath) temppath
      exact not_mem_fsRemove_self _ _
    · show filepath ∈ fsRemove (fsAdd fs newpath) temppath ↔ false = false
      exact iff_of_true
        ((mem_fsRemove_iff _ _ _ h3).mpr ((mem_fsAdd_iff _ _ _ h2).mpr h4)) rfl
  | true =>
    refine ⟨?_, ?_, ?_, rfl, rfl⟩
    · show newpath ∈ fsRemove (fsRemove (fsAdd fs newpath) temppath) filepath
      exact (mem_fsRemove_iff _ _ _ (Ne.symm h2)).mpr
        ((mem_fsRemove_iff _ _ _ (Ne.symm h1)).mpr (mem_fsAdd_self fs newpath))
    · show temppath ∉ fsRemove (fsRemove (fsAdd fs newpath) temppath) filepath
      intro hmem
      exact not_mem_fsRemove_self _ _ ((mem_fsRemove_iff _ _ _ (Ne.symm h3)).mp hmem)
    · show filepath ∈ fsRemove (fsRemove (fsAdd fs newpath) temppath) filepath ↔ true = false
      exact iff_of_false (not_mem_fsRemove_self _ _) (by simp)

/-- Witness for C5 at concrete paths, with delete-source enabled. -/
theorem c5_relocation_witness :
    "/ready/a.mkv" ∈ (onEndRelocate true "/temp/a.mkv" "/ready/a.mkv" "/watch/a.mkv"
      ["/watch/a.mkv", "/temp/a.mkv"] ["/watch/b.mkv"] false false false).1 :=
  (c5_relocation true "/temp/a.mkv" "/ready/a.mkv" "/watch/a.mkv"
    ["/watch/a.mkv", "/temp/a.mkv"] ["/watch/b.mkv"]
    (by decide) (by decide) (by decide) (by decide)).1.1

/- ### Claims about the directory reconciler -/

/-- Claim C7 counterexample: with clean depth 1 and a watch root holding
two empty subdirectories, the first run removes only `show1` — its
self-removal makes the parent's following `readdir` throw, which aborts
the sibling loop — and the second run, on the unchanged remaining tree,
removes one more directory (`show2`).  The second run's removal count is
not zero, refuting idempotence as claimed. -/
theorem c7_counterexample :
    removeEmptyDirectories 1 0 [("show1", FsT.dir []), ("show2", FsT.dir [])]
      = ⟨some [("show2", FsT.dir [])], 1⟩ ∧
    removeEmptyDirectories 1 0 [("show2", FsT.dir [])] = ⟨some [], 1⟩ ∧
    (removeEmptyDirectories 1 0 [("show2", FsT.dir [])]).removed ≠ 0 := by
  refine ⟨?_, ?_, ?_⟩ <;> simp [removeEmptyDirectories, rmLoop, dirResult]

/-- Claim C7 amended: a run of the reconciler that removes no directories
leaves the tree unchanged, so a second run on its output again removes
nothing — idempotence holds exactly from the first run that performs no
removal. -/
theorem c7_fixpoint (cd : Int) (es es' : List (String × FsT))
    (h : removeEmptyDirectories cd 0 es = ⟨some es', 0⟩) :
    removeEmptyDirectories cd 0 es' = ⟨some es', 0⟩ := by
  unfold removeEmptyDirectories at h
  have hs := dirResult_some cd 0 (rmLoop cd 0 es) es' 0 h
  have hz := rmLoop_removed_zero cd 0 es hs.2.symm
  have heq : es' = es := by rw [hs.1, hz.1]
  rw [heq]
  rw [heq] at h
  exact h

/-- Witness for the amended C7 on a tree whose first run removes
nothing. -/
theorem c7_fixpoint_witness :
    removeEmptyDirectories 1 0 [("a", FsT.file)] = ⟨some [("a", FsT.file)], 0⟩ :=
  c7_fixpoint 1 [("a", FsT.file)] [("a", FsT.file)]
    (by simp [removeEmptyDirectories, rmLoop, dirResult])

/-- Claim C8 counterexample: with clean depth 1, processing subdirectory
`d1` removes it, and the resulting `readdir` error — caught by the parent's
single `try/catch` which sits *outside* the entry loop — aborts the loop,
so the removable sibling `d2` is not processed (it survives).  The second
conjunct shows the same run on `d2` alone does remove it, so `d2` really
was left unprocessed rather than processed-and-kept. -/
theorem c8_counterexample :
    removeEmptyDirectories 1 0 [("d1", FsT.dir []), ("d2", FsT.dir [])]
      = ⟨some [("d2", FsT.dir [])], 1⟩ ∧
    removeEmptyDirectories 1 0 [("d2", FsT.dir [])] = ⟨some [], 1⟩ := by
  constructor <;> simp [removeEmptyDirectories, rmLoop, dirResult]

/-- Claim C8 amended: an error during the reconciliation *inside* one
subdirectory is caught and logged within that subdirectory's own recursive
call (the reconciler never crashes), and as long as the subdirectory
itself still exists afterwards — it neither removed itself nor is removed
by the parent — the parent's loop does continue with the remaining sibling
entries.  (When the subdirectory was removed, the parent's `readdir` of it
throws and the remaining siblings are skipped, as the counterexample
shows.) -/
theorem c8_sibling_continuation (cd : Int) (d : Nat) (n : String)
    (sub rest l : List (String × FsT)) (r : Nat)
    (h : removeEmptyDirectories cd (d + 1) sub = ⟨some l, r⟩)
    (hkeep : (l.isEmpty && decide ((d : Int) ≥ cd)) = false) :
    rmLoop cd d ((n, FsT.dir sub) :: rest) =
      ⟨(n, FsT.dir l) :: (rmLoop cd d rest).surv, false,
        r + (rmLoop cd d rest).removed, (rmLoop cd d rest).aborted⟩ := by
  unfold removeEmptyDirectories at h
  simp only [rmLoop]
  rw [h]
  simp only [hkeep, Bool.false_eq_true, if_false]

/-- Witness for the amended C8: inside `a`, subdirectory `b` removes
itself and the caught error skips `a`'s remaining entry `c`; still, `a`
survives (non-empty), so the outer loop continues and processes `a`'s own
sibling `e`. -/
theorem c8_sibling_continuation_witness :
    rmLoop 2 0 [("a", FsT.dir [("b", FsT.dir []), ("c", FsT.dir [])]),
        ("e", FsT.dir [("f", FsT.dir [])])] =
      ⟨("a", FsT.dir [("c", FsT.dir [])]) ::
          (rmLoop 2 0 [("e", FsT.dir [("f", FsT.dir [])])]).surv, false,
        1 + (rmLoop 2 0 [("e", FsT.dir [("f", FsT.dir [])])]).removed,
        (rmLoop 2 0 [("e", FsT.dir [("f", FsT.dir [])])]).aborted⟩ :=
  c8_sibling_continuation 2 0 "a" [("b", FsT.dir []), ("c", FsT.dir [])]
    [("e", FsT.dir [("f", FsT.dir [])])] [("c", FsT.dir [])] 1
    (by simp [removeEmptyDirectories, rmLoop, dirResult]) (by decide)

/- ### Claims about the file-add router -/

/-- Claim C1 counterexample: for a discovered video-extension path whose
probe errors, the path *is* enqueued on the transcode queue — the probe
error is caught inside `detectSample` and `isTargetCodec`, both of which
return `false`, so control falls through to `addToQueue`. -/
theorem c1_counterexample :
    RouterAction.enqueue ∈
      handleFileAdd ⟨"av1", true, true, 300⟩ "/watch/movie.mkv"
        (Except.error ()) true true := by
  decide

/-- Claim C1 amended: when the probe fails for a discovered
video-extension file, the handler logs the error (inside the probe
helpers), treats the file as neither a sample nor already in the target
codec, and enqueues it on the transcode queue; the file is not deleted,
not copied to the final path, and not skipped as a sample. -/
theorem c1_probe_failure_enqueues (cfg : Config) (filepath : String)
    (copyOk unlinkOk : Bool)
    (hw : isWorkFile filepath = false)
    (hv : isVideoFile (lowerStr (extname filepath)) = true) :
    RouterAction.enqueue ∈ handleFileAdd cfg filepath (Except.error ()) copyOk unlinkOk ∧
    RouterAction.unlinkSource ∉ handleFileAdd cfg filepath (Except.error ()) copyOk unlinkOk ∧
    RouterAction.copyToFinal ∉ handleFileAdd cfg filepath (Except.error ()) copyOk unlinkOk ∧
    RouterAction.logSkipSample ∉ handleFileAdd cfg filepath (Except.error ()) copyOk unlinkOk := by
  have hd : detectSample cfg.videoSampleSeconds (Except.error ()) = false := rfl
  have ht : isTargetCodec cfg.videoCodec (Except.error ()) = false := rfl
  cases hsk : cfg.videoSkipReencode <;>
    simp [handleFileAdd, hw, hv, hd, ht, hsk]

/-- Witness for the amended C1 at a concrete path and configuration. -/
theorem c1_probe_failure_enqueues_witness :
    RouterAction.enqueue ∈
      handleFileAdd ⟨"av1", false, true, 300⟩ "/watch/clip.m4v"
        (Except.error ()) true true ∧
    RouterAction.unlinkSource ∉
      handleFileAdd ⟨"av1", false, true, 300⟩ "/watch/clip.m4v"
        (Except.error ()) true true ∧
    RouterAction.copyToFinal ∉
      handleFileAdd ⟨"av1", false, true, 300⟩ "/watch/clip.m4v"
        (Except.error ()) true true ∧
    RouterAction.logSkipSample ∉
      handleFileAdd ⟨"av1", false, true, 300⟩ "/watch/clip.m4v"
        (Except.error ()) true true :=
  c1_probe_failure_enqueues ⟨"av1", false, true, 300⟩ "/watch/clip.m4v" true true
    (by decide) (by decide)

/-- Claim C2 counterexample: for a non-sample video path with codec-skip
enabled (the default configuration), `ffprobeAsync` is invoked twice
before the enqueue decision — once inside `detectSample` and once inside
`isTargetCodec` — not exactly once. -/
theorem c2_counterexample :
    (handleFileAdd ⟨"av1", true, true, 300⟩ "/watch/feature.mkv"
        (Except.ok ⟨[⟨"video", "h264"⟩], 4000⟩) true true).count RouterAction.probeCall = 2 ∧
    ¬ ((handleFileAdd ⟨"av1", true, true, 300⟩ "/watch/feature.mkv"
        (Except.ok ⟨[⟨"video", "h264"⟩], 4000⟩) true true).count RouterAction.probeCall = 1) := by
  decide

/-- Claim C2 amended: for every discovered video-extension path that is
not a work file, the probe is invoked exactly once before the sample-skip
decision; when the file is not judged a sample and codec-skip is enabled
it is invoked a second time for the codec decision — so one probe call
when the file is a sample or codec-skip is disabled, and two otherwise. -/
theorem c2_probe_call_count (cfg : Config) (filepath : String)
    (probe : Except Unit Metadata) (copyOk unlinkOk : Bool)
    (hw : isWorkFile filepath = false)
    (hv : isVideoFile (lowerStr (extname filepath)) = true) :
    (handleFileAdd cfg filepath probe copyOk unlinkOk).count RouterAction.probeCall =
      if detectSample cfg.videoSampleSeconds probe then 1
      else if cfg.videoSkipReencode then 2 else 1 := by
  cases hd : detectSample cfg.videoSampleSeconds probe with
  | true => simp [handleFileAdd, hw, hv, hd]
  | false =>
    cases hsk : cfg.videoSkipReencode with
    | false => simp [handleFileAdd, hw, hv, hd, hsk]
    | true =>
      cases ht : isTargetCodec cfg.videoCodec probe with
      | false => simp [handleFileAdd, hw, hv, hd, hsk, ht]
      | true =>
        cases copyOk <;> cases unlinkOk <;>
          simp [handleFileAdd, hw, hv, hd, hsk, ht, moveFileTrace]

/-- Witness for the amended C2: a sample file yields exactly one probe
call. -/
theorem c2_probe_call_count_witness :
    (handleFileAdd ⟨"av1", true, true, 300⟩ "/watch/short.mp4"
        (Except.ok ⟨[⟨"video", "h264"⟩], 20⟩) true true).count RouterAction.probeCall =
      if detectSample (300 : Int) (Except.ok ⟨[⟨"video", "h264"⟩], 20⟩) then 1
      else if true then 2 else 1 :=
  c2_probe_call_count ⟨"av1", true, true, 300⟩ "/watch/short.mp4"
    (Except.ok ⟨[⟨"video", "h264"⟩], 20⟩) true true (by decide) (by decide)

/-- Claim C6: a path classified as a work file makes `handleFileAdd` log
and return immediately: its trace is exactly the log action, so no chmod,
no mkdir under the completed-content root, no copy, no delete, and no
enqueue takes place.  (In the legacy entry point `src/unnamed/part_000`
the same check runs only *after* two `mkdir` calls, so that variant does
create directories under the completed root.) -/
theorem c6_workfile_no_mutation (cfg : Config) (filepath : String)
    (probe : Except Unit Metadata) (copyOk unlinkOk : Bool)
    (h : isWorkFile filepath = true) :
    handleFileAdd cfg filepath probe copyOk unlinkOk = [RouterAction.logIgnoreWork] := by
  simp [handleFileAdd, h]

/-- Witness for C6 at the spec's scenario path `/watch/.tmp/partial.mkv`. -/
theorem c6_workfile_no_mutation_witness :
    handleFileAdd ⟨"av1", true, true, 300⟩ "/watch/.tmp/partial.mkv"
      (Except.error ()) true true = [RouterAction.logIgnoreWork] :=
  c6_workfile_no_mutation ⟨"av1", true, true, 300⟩ "/watch/.tmp/partial.mkv"
    (Except.error ()) true true (by decide)

/-- Claim C9: for a probed, non-sample video whose video-stream codec
(lower-cased) equals the configured target codec, with codec-skip enabled
and the filesystem cooperating, the handler's trace is exactly chmod,
mkdir, the two probe calls, then copy-to-final and delete-original — and
no enqueue happens. -/
theorem c9_codec_skip_moves (cfg : Config) (filepath : String)
    (m : Metadata) (vs : MStream)
    (hw : isWorkFile filepath = false)
    (hv : isVideoFile (lowerStr (extname filepath)) = true)
    (hsample : detectSample cfg.videoSampleSeconds (Except.ok m) = false)
    (hskip : cfg.videoSkipReencode = true)
    (hfind : m.streams.find? (fun s => s.codec_type == "video") = some vs)
    (hcodec : lowerStr vs.codec_name = cfg.videoCodec) :
    handleFileAdd cfg filepath (Except.ok m) true true =
      [RouterAction.chmodTree, RouterAction.mkdirFinalDir, RouterAction.probeCall,
       RouterAction.probeCall, RouterAction.copyToFinal, RouterAction.unlinkSource] ∧
    RouterAction.enqueue ∉ handleFileAdd cfg filepath (Except.ok m) true true := by
  have ht : isTargetCodec cfg.videoCodec (Except.ok m) = true := by
    simp only [isTargetCodec, hfind, hcodec]
    exact strIncludes_self cfg.videoCodec
  constructor <;> simp [handleFileAdd, hw, hv, hsample, hskip, ht, moveFileTrace]

/-- Witness for C9 at the spec's scenario: `/watch/show/ep1.mkv`, probe
reporting an `AV1` video stream, target codec `av1`. -/
theorem c9_codec_skip_moves_witness :
    handleFileAdd ⟨"av1", true, true, 300⟩ "/watch/show/ep1.mkv"
        (Except.ok ⟨[⟨"video", "AV1"⟩], 3600⟩) true true =
      [RouterAction.chmodTree, RouterAction.mkdirFinalDir, RouterAction.probeCall,
       RouterAction.probeCall, RouterAction.copyToFinal, RouterAction.unlinkSource] ∧
    RouterAction.enqueue ∉
      handleFileAdd ⟨"av1", true, true, 300⟩ "/watch/show/ep1.mkv"
        (Except.ok ⟨[⟨"video", "AV1"⟩], 3600⟩) true true :=
  c9_codec_skip_moves ⟨"av1", true, true, 300⟩ "/watch/show/ep1.mkv"
    ⟨[⟨"video", "AV1"⟩], 3600⟩ ⟨"video", "AV1"⟩
    (by decide) (by decide) (by decide) rfl (by decide) (by decide)

/-- Claim C10: for every discovered path that is not a work file, the
first action of `handleFileAdd` is the recursive chmod — it precedes the
video/subtitle/misc classification branches, for every probe outcome and
configuration — and `chmodRecursive` with the source's default mode
`0o777 = 511` sets that mode on the node and on every node below it. -/
theorem c10_chmod_first (cfg : Config) (filepath : String)
    (probe : Except Unit Metadata) (copyOk unlinkOk : Bool)
    (hw : isWorkFile filepath = false) :
    (handleFileAdd cfg filepath probe copyOk unlinkOk).head? = some RouterAction.chmodTree ∧
    ∀ t : PTree, allModes 511 (chmodRecursive 511 t) = true := by
  constructor
  · simp [handleFileAdd, hw]
  · exact fun t => allModes_chmodRecursive 511 t

/-- Witness for C10 at a misc-extension path (deleted as misc, chmod
still first) and a small two-node tree with other modes. -/
theorem c10_chmod_first_witness :
    (handleFileAdd ⟨"av1", true, true, 300⟩ "/watch/readme.txt"
        (Except.error ()) true true).head? = some RouterAction.chmodTree ∧
    allModes 511 (chmodRecursive 511 (PTree.pdir 420 [("f", PTree.pfile 384)])) = true :=
  ⟨(c10_chmod_first ⟨"av1", true, true, 300⟩ "/watch/readme.txt"
      (Except.error ()) true true (by decide)).1,
   (c10_chmod_first ⟨"av1", true, true, 300⟩ "/watch/readme.txt"
      (Except.error ()) true true (by decide)).2
     (PTree.pdir 420 [("f", PTree.pfile 384)])⟩
